import Mathlib

/-!
Verification of the content-moderation core of the repository
(src/src/services/moderationService.js and src/src/utils/moderation.js).

Modelling conventions of this shallow embedding:
* JavaScript strings are modelled as lists of characters (`Str`); all inputs
  exercised by the specification are ASCII, so the ASCII case conversion of
  `Char.toLower` coincides with JavaScript `toLowerCase` on them.
* JavaScript numbers are modelled as rationals: every constant occurring in the
  moderation engine (weights, thresholds, score increments) is a decimal
  fraction, and no claim under scrutiny depends on binary floating-point
  rounding.
* Regular expressions from the source are implemented as explicit matching
  functions; each such function carries the regex it implements in its doc
  comment, including the backtracking (greedy/lazy/alternation) order of the
  JavaScript engine.
* External capabilities loaded with try/require in the source (the bad-words
  profanity filter, the libphonenumber validator, the Mongoose User lookup) are
  parameters of an `Env` record; results of calls that may throw are modelled
  with `Except Unit`.  The fallback implementations that the source installs
  when a library is missing are themselves part of the source and are embedded
  as well (`fallbackEnv`).
-/

set_option maxRecDepth 20000

namespace SidlabsModeration

/-- JavaScript strings, modelled as lists of characters. -/
abbrev Str := List Char

/-- Regex class backslash-d (ASCII digit). -/
def isDigitC (c : Char) : Bool := '0' ≤ c && c ≤ '9'

/-- JavaScript regex class backslash-s restricted to ASCII: space, tab,
line feed, vertical tab, form feed, carriage return. -/
def isWsC (c : Char) : Bool :=
  c = ' ' || c = '\t' || c = '\n' || c = '\x0b' || c = '\x0c' || c = '\r'

/-- Regex class backslash-w: ASCII letters, digits and underscore. -/
def isWordC (c : Char) : Bool := c.isAlpha || isDigitC c || c = '_'

/-- ASCII letter or digit (used by several character classes). -/
def isAlnumC (c : Char) : Bool := c.isAlpha || isDigitC c

/-- Regex class used by checkProfanityPatterns: lowercase letter or digit. -/
def isLowerAlnum (c : Char) : Bool := ('a' ≤ c && c ≤ 'z') || isDigitC c

/-- Character of a string at an index, if in range. -/
def charAt (s : Str) (i : Nat) : Option Char := (s.drop i).head?

/-- Wordness of the character preceding a match position (none = string start,
which is not a word character). -/
def prevWord : Option Char → Bool
  | none => false
  | some c => isWordC c

/-- A word-boundary check after a match whose last character is a word
character: the remainder must be empty or start with a non-word character. -/
def endNoWord : Str → Bool
  | [] => true
  | c :: _ => !isWordC c

/-- Does the pattern occur as an initial segment of the string? -/
def leadsWith : Str → Str → Bool
  | [], _ => true
  | _ :: _, [] => false
  | p :: ps, c :: cs => p = c && leadsWith ps cs

/-- Does the pattern occur as a final segment of the string? -/
def trailsWith (p s : Str) : Bool := leadsWith p.reverse s.reverse

/-- JavaScript String.indexOf: index of the first occurrence of the pattern
(0 for the empty pattern), or none. -/
def indexOfSub (hay pat : Str) : Option Nat :=
  if leadsWith pat hay then some 0
  else
    match hay with
    | [] => none
    | _ :: t => (indexOfSub t pat).map (· + 1)

/-- JavaScript String.includes (also used for indexOf inequality tests). -/
def containsSub (hay pat : Str) : Bool := (indexOfSub hay pat).isSome

/-- Match a pattern (given in lowercase) case-insensitively at the head of the
string; returns the remainder on success. -/
def matchCI : Str → Str → Option Str
  | [], s => some s
  | _ :: _, [] => none
  | p :: ps, c :: cs => if c.toLower = p then matchCI ps cs else none

/-- JavaScript Math.min on two numbers. -/
def jsMin (a b : ℚ) : ℚ := if a ≤ b then a else b

/-- Greedy descending list of candidate lengths n, n-1, ..., 1 used to embed
the backtracking order of a greedy regex quantifier. -/
def downFrom (n : Nat) : List Nat := (List.range n).reverse.map (· + 1)

/-! Section: Sanitizer (src/src/utils/moderation.js, sanitizeInput)

sanitizeInput performs, in order:
1. removal of whole script/style blocks, regex
   <[ws]*(script|style)[^>]*>[sS]*?<[ws]*/[ws]*[backref1]> with flags gi;
2. stripping of remaining tags, regex <[^>]*>? with flag g;
3. String.trim.
-/

/-- Skip leading regex whitespace. -/
def skipWs (s : Str) : Str := s.dropWhile isWsC

/-- Tag-name alternation (script|style), case-insensitive, in source order;
returns the canonical lowercase name and the remainder. -/
def matchTagName (s : Str) : Option (Str × Str) :=
  match matchCI ("script".data) s with
  | some r => some (("script".data), r)
  | none =>
    match matchCI ("style".data) s with
    | some r => some (("style".data), r)
    | none => none

/-- Consume the regex piece [^>]*> : everything up to and including the next
greater-than sign (failing if there is none). -/
def eatToGt : Str → Option Str
  | [] => none
  | c :: r => if c = '>' then some r else eatToGt r

/-- Opening tag of a script/style block at the head of the string. -/
def matchSSOpen (s : Str) : Option (Str × Str) :=
  match s with
  | '<' :: r =>
    match matchTagName (skipWs r) with
    | some (tag, r2) => (eatToGt r2).map (fun r3 => (tag, r3))
    | none => none
  | _ => none

/-- Closing tag of a script/style block at the head of the string: a
less-than sign, optional whitespace, slash, optional whitespace, the captured
tag name (case-insensitively, reflecting the i flag on the backreference) and
a greater-than sign. -/
def matchSSClose (tag : Str) (s : Str) : Option Str :=
  match s with
  | '<' :: r =>
    match skipWs r with
    | '/' :: r2 =>
      match matchCI tag (skipWs r2) with
      | some ('>' :: r3) => some r3
      | _ => none
    | _ => none
  | _ => none

/-- Lazy body followed by the closing tag: find the earliest closing tag and
return the remainder after it. -/
def findSSClose (tag : Str) : Str → Option Str
  | [] => none
  | c :: rest =>
    match matchSSClose tag (c :: rest) with
    | some r => some r
    | none => findSSClose tag rest

theorem eatToGt_length {s r : Str} (h : eatToGt s = some r) :
    r.length < s.length := by
  induction s with
  | nil => simp [eatToGt] at h
  | cons c t ih =>
    simp only [eatToGt] at h
    split at h
    · cases h; simp
    · exact Nat.lt_trans (ih h) (by simp)

theorem skipWs_length (s : Str) : (skipWs s).length ≤ s.length := by
  simpa using (List.dropWhile_sublist (l := s) (p := isWsC)).length_le

theorem matchCI_length {p s r : Str} (h : matchCI p s = some r) :
    r.length ≤ s.length := by
  induction p generalizing s with
  | nil =>
    simp only [matchCI, Option.some.injEq] at h
    subst h
    exact le_rfl
  | cons a ps ih =>
    cases s with
    | nil => simp [matchCI] at h
    | cons c cs =>
      simp only [matchCI] at h
      split at h
      · exact Nat.le_trans (ih h) (by simp)
      · cases h

theorem matchTagName_length {s : Str} {tag r : Str}
    (h : matchTagName s = some (tag, r)) : r.length ≤ s.length := by
  unfold matchTagName at h
  split at h
  · rename_i heq
    cases h
    exact matchCI_length heq
  · split at h
    · rename_i heq
      cases h
      exact matchCI_length heq
    · cases h

theorem matchSSOpen_length {s : Str} {tag r : Str}
    (h : matchSSOpen s = some (tag, r)) : r.length < s.length := by
  unfold matchSSOpen at h
  split at h
  · rename_i rest
    split at h
    · rename_i tag2 r2 heq
      simp only [Option.map_eq_some'] at h
      obtain ⟨r3, hgt, hpair⟩ := h
      cases hpair
      have h1 := eatToGt_length hgt
      have h2 := matchTagName_length heq
      have h3 := skipWs_length rest
      simp only [List.length_cons]
      omega
    · cases h
  · cases h

theorem matchSSClose_length {tag s r : Str}
    (h : matchSSClose tag s = some r) : r.length < s.length := by
  unfold matchSSClose at h
  split at h
  · rename_i rest
    split at h
    · rename_i r2 heq
      split at h
      · rename_i r3 heq2
        cases h
        have h1 := matchCI_length heq2
        have h2 : (skipWs r2).length ≤ r2.length := skipWs_length r2
        have h3 : (skipWs rest).length ≤ rest.length := skipWs_length rest
        rw [heq] at h3
        simp only [List.length_cons] at h1 h3 ⊢
        omega
      · cases h
    · cases h
  · cases h

theorem findSSClose_length {tag s r : Str}
    (h : findSSClose tag s = some r) : r.length < s.length := by
  induction s with
  | nil => simp [findSSClose] at h
  | cons c rest ih =>
    simp only [findSSClose] at h
    split at h
    · rename_i heq
      cases h
      exact matchSSClose_length heq
    · exact Nat.lt_trans (ih h) (by simp)

/-- First replace of sanitizeInput: global removal of script/style blocks.
After an unmatched less-than sign the JavaScript engine retries at the next
position, which the recursive call on the tail reproduces. -/
def removeSS : Str → Str
  | [] => []
  | c :: rest =>
    if c = '<' then
      match hm : (match matchSSOpen (c :: rest) with
                  | some (tag, r2) => findSSClose tag r2
                  | none => none) with
      | some rem => removeSS rem
      | none => c :: removeSS rest
    else c :: removeSS rest
termination_by s => s.length
decreasing_by
  · split at hm
    · rename_i tag r2 heq
      have h1 := findSSClose_length hm
      have h2 := matchSSOpen_length heq
      omega
    · cases hm
  · simp only [List.length_cons]
    omega
  · simp only [List.length_cons]
    omega

/-- Second replace of sanitizeInput: strip remaining tags, regex <[^>]*>?
with flag g.  A less-than sign starts a match that consumes every following
character up to and including the next greater-than sign (or to the end of
the string); the Boolean state records whether we are inside such a match. -/
def stripTagsGo : Bool → Str → Str
  | _, [] => []
  | true, c :: rest =>
    if c = '>' then stripTagsGo false rest else stripTagsGo true rest
  | false, c :: rest =>
    if c = '<' then stripTagsGo true rest else c :: stripTagsGo false rest

/-- Strip remaining markup tags. -/
def stripTags (s : Str) : Str := stripTagsGo false s

/-- JavaScript String.trim, leading part. -/
def trimStart (s : Str) : Str := s.dropWhile isWsC

/-- JavaScript String.trim, trailing part. -/
def trimEnd (s : Str) : Str := (s.reverse.dropWhile isWsC).reverse

/-- JavaScript String.trim (ASCII whitespace). -/
def jsTrim (s : Str) : Str := trimEnd (trimStart s)

/-- The sanitizer of src/src/utils/moderation.js: remove script/style blocks,
strip remaining tags, trim. -/
def sanitizeInput (text : Str) : Str := jsTrim (stripTags (removeSS text))

theorem dropWhile_head_false {p : Char → Bool} {l : Str} {c : Char} {t : Str}
    (h : l.dropWhile p = c :: t) : p c = false := by
  induction l with
  | nil => simp [List.dropWhile] at h
  | cons a l' ih =>
    rw [List.dropWhile_cons] at h
    split at h
    · exact ih h
    · rename_i ha
      cases h
      simpa using ha

theorem dropWhile_self (p : Char → Bool) (l : Str) :
    List.dropWhile p (List.dropWhile p l) = List.dropWhile p l := by
  cases h : List.dropWhile p l with
  | nil => simp
  | cons c t =>
    have hc := dropWhile_head_false h
    rw [List.dropWhile_cons, hc]
    simp

theorem dropWhile_decomp (p : Char → Bool) (l : Str) :
    ∃ u, l = u ++ l.dropWhile p := by
  induction l with
  | nil => exact ⟨[], rfl⟩
  | cons a l' ih =>
    rw [List.dropWhile_cons]
    split
    · obtain ⟨u, hu⟩ := ih
      exact ⟨a :: u, by simp [← hu]⟩
    · exact ⟨[], rfl⟩

theorem mem_of_dropWhile {p : Char → Bool} {l : Str} {a : Char}
    (h : a ∈ l.dropWhile p) : a ∈ l := by
  induction l with
  | nil => simpa [List.dropWhile] using h
  | cons c l' ih =>
    rw [List.dropWhile_cons] at h
    split at h
    · exact List.mem_cons_of_mem _ (ih h)
    · exact h

theorem dropWhile_eq_self_head {p : Char → Bool} {l : Str} {c : Char} {t : Str}
    (h : List.dropWhile p l = l) (hl : l = c :: t) : p c = false := by
  subst hl
  exact dropWhile_head_false h

theorem trimEnd_idem (s : Str) : trimEnd (trimEnd s) = trimEnd s := by
  unfold trimEnd
  rw [List.reverse_reverse, dropWhile_self]

theorem trimEnd_decomp (s : Str) : ∃ t, s = trimEnd s ++ t := by
  obtain ⟨u, hu⟩ := dropWhile_decomp isWsC s.reverse
  refine ⟨u.reverse, ?_⟩
  unfold trimEnd
  calc s = s.reverse.reverse := by rw [List.reverse_reverse]
    _ = (u ++ s.reverse.dropWhile isWsC).reverse := by rw [← hu]
    _ = (s.reverse.dropWhile isWsC).reverse ++ u.reverse := by
          rw [List.reverse_append]

theorem trimStart_trimEnd_of {u : Str} (hu : trimStart u = u) :
    trimStart (trimEnd u) = trimEnd u := by
  obtain ⟨t, ht⟩ := trimEnd_decomp u
  cases hz : trimEnd u with
  | nil => simp [trimStart]
  | cons c z' =>
    have hcu : u = c :: (z' ++ t) := by rw [ht, hz]; simp
    have hc : isWsC c = false := dropWhile_eq_self_head hu hcu
    unfold trimStart
    rw [List.dropWhile_cons, hc]
    simp

theorem jsTrim_idem (s : Str) : jsTrim (jsTrim s) = jsTrim s := by
  unfold jsTrim
  have hu : trimStart (trimStart s) = trimStart s := dropWhile_self isWsC s
  rw [trimStart_trimEnd_of hu, trimEnd_idem]

theorem not_mem_jsTrim {c : Char} {s : Str} (h : c ∉ s) : c ∉ jsTrim s := by
  intro hmem
  apply h
  unfold jsTrim trimEnd trimStart at hmem
  rw [List.mem_reverse] at hmem
  have h1 := mem_of_dropWhile hmem
  rw [List.mem_reverse] at h1
  exact mem_of_dropWhile h1

theorem stripTagsGo_no_lt (b : Bool) (s : Str) : '<' ∉ stripTagsGo b s := by
  induction s generalizing b with
  | nil => cases b <;> simp [stripTagsGo]
  | cons c rest ih =>
    cases b with
    | true =>
      rw [stripTagsGo]
      split
      · exact ih false
      · exact ih true
    | false =>
      rw [stripTagsGo]
      split
      · exact ih true
      · rename_i hc
        intro hmem
        rcases List.mem_cons.mp hmem with h | h
        · exact hc h.symm
        · exact ih false h

theorem stripTagsGo_false_id {s : Str} (h : '<' ∉ s) : stripTagsGo false s = s := by
  induction s with
  | nil => rfl
  | cons c rest ih =>
    rw [stripTagsGo]
    have hc : ¬(c = '<') := fun hc => h (hc ▸ List.mem_cons_self c rest)
    rw [if_neg hc]
    rw [ih (fun hm => h (List.mem_cons_of_mem c hm))]

theorem removeSS_id {s : Str} (h : '<' ∉ s) : removeSS s = s := by
  induction s with
  | nil => rw [removeSS]
  | cons c rest ih =>
    rw [removeSS]
    have hc : ¬(c = '<') := fun hc => h (hc ▸ List.mem_cons_self c rest)
    rw [if_neg hc]
    rw [ih (fun hm => h (List.mem_cons_of_mem c hm))]

theorem sanitizeInput_no_lt (x : Str) : '<' ∉ sanitizeInput x :=
  not_mem_jsTrim (stripTagsGo_no_lt false (removeSS x))

/-- C8: the sanitizer is idempotent — after one pass of script/style-block
removal, markup-tag stripping and trimming, a second pass is the identity:
sanitize(sanitize(x)) = sanitize(x) for every input string x. -/
theorem sanitizeInput_idempotent (x : Str) :
    sanitizeInput (sanitizeInput x) = sanitizeInput x := by
  have hy : '<' ∉ sanitizeInput x := sanitizeInput_no_lt x
  show jsTrim (stripTags (removeSS (sanitizeInput x))) = sanitizeInput x
  rw [removeSS_id hy]
  show jsTrim (stripTagsGo false (sanitizeInput x)) = sanitizeInput x
  rw [stripTagsGo_false_id hy]
  show jsTrim (jsTrim (stripTags (removeSS x))) = sanitizeInput x
  rw [jsTrim_idem]
  rfl

/-! Section: Global regex scanning engine

JavaScript String.match with the g flag tries the pattern at each position
from left to right; on a match it records the matched substring and resumes
immediately after it (advancing at least one character).  Each pattern below
is embedded as a function from the previous character (for word-boundary
look-behind) and the remaining text to the number of characters the match
consumes.  The fuel argument is initialised with the length of the scanned
string, which bounds the number of scanning steps because every step consumes
at least one character.
-/

/-- One scanning pass of a global regex; fuel-driven structural recursion. -/
def gScanGo (matchAt : Option Char → Str → Option Nat) :
    Nat → Option Char → Str → List Str
  | 0, _, _ => []
  | fuel + 1, prev, s =>
    match s with
    | [] => []
    | c :: rest =>
      match matchAt prev (c :: rest) with
      | some n =>
        let k := max n 1
        (c :: rest).take k ::
          gScanGo matchAt fuel (((c :: rest).take k).getLast?) ((c :: rest).drop k)
      | none => gScanGo matchAt fuel (some c) rest

/-- All matches of a global regex over a string (JavaScript match with g,
with null normalised to the empty list). -/
def gScan (matchAt : Option Char → Str → Option Nat) (s : Str) : List Str :=
  gScanGo matchAt s.length none s

/-- Consume exactly n digits, returning the remainder. -/
def eatDigits : Nat → Str → Option Str
  | 0, s => some s
  | _ + 1, [] => none
  | n + 1, c :: rest => if isDigitC c then eatDigits n rest else none

/-- Character class of the phone-number separators, regex [-.backslash-s]. -/
def isPhoneSep (c : Char) : Bool := c = '-' || c = '.' || isWsC c

/-- Phone pattern of PHI_PATTERNS and of the fallback phone validator:
regex b-anchor d3 [-.s]? d3 [-.s]? d4 b-anchor (weight 0.8).  The two
optional separators are greedy: presence is tried before absence. -/
def matchPhoneAt (prev : Option Char) (s : Str) : Option Nat :=
  if prevWord prev then none
  else
    match eatDigits 3 s with
    | none => none
    | some r1 =>
      let step3 : Str → Option Nat := fun r4 =>
        match eatDigits 4 r4 with
        | none => none
        | some r5 => if endNoWord r5 then some (s.length - r5.length) else none
      let step2 : Str → Option Nat := fun r2 =>
        match eatDigits 3 r2 with
        | none => none
        | some r3 =>
          match r3 with
          | c :: rest =>
            if isPhoneSep c then ((step3 rest).orElse fun _ => step3 r3)
            else step3 r3
          | [] => step3 r3
      match r1 with
      | c :: rest =>
        if isPhoneSep c then ((step2 rest).orElse fun _ => step2 r1)
        else step2 r1
      | [] => step2 r1

/-- SSN pattern: regex b-anchor d3 - d2 - d4 b-anchor (weight 1.0). -/
def matchSsnAt (prev : Option Char) (s : Str) : Option Nat :=
  if prevWord prev then none
  else
    match eatDigits 3 s with
    | some ('-' :: r1) =>
      match eatDigits 2 r1 with
      | some ('-' :: r2) =>
        match eatDigits 4 r2 with
        | some r3 => if endNoWord r3 then some (s.length - r3.length) else none
        | none => none
      | _ => none
    | _ => none

/-- Local-part character class of the email pattern (with the i flag). -/
def isEmailLocalC (c : Char) : Bool :=
  c.isAlpha || isDigitC c || c = '.' || c = '_' || c = '%' || c = '+' || c = '-'

/-- Domain character class of the email pattern (with the i flag). -/
def isEmailDomC (c : Char) : Bool :=
  c.isAlpha || isDigitC c || c = '.' || c = '-'

/-- Email pattern: regex b-anchor [A-Z0-9._%+-]+ at-sign [A-Z0-9.-]+ dot
[A-Z]2+ b-anchor, flags gi (weight 0.6).  The greedy domain run backtracks
from the longest split whose next character is the literal dot; the trailing
letter run is greedy and the final word boundary cannot be rescued by
shrinking it, so it is checked after the maximal letter run. -/
def matchEmailAt (prev : Option Char) (s : Str) : Option Nat :=
  match s with
  | [] => none
  | c0 :: _ =>
    if prevWord prev = isWordC c0 then none
    else
      let loc := s.takeWhile isEmailLocalC
      if loc.length = 0 then none
      else
        match s.drop loc.length with
        | '@' :: r1 =>
          let dom := r1.takeWhile isEmailDomC
          (downFrom dom.length).findSome? fun k =>
            match r1.drop k with
            | '.' :: r2 =>
              let m := r2.takeWhile Char.isAlpha
              if 2 ≤ m.length && endNoWord (r2.drop m.length) then
                some (loc.length + 1 + k + 1 + m.length)
              else none
            | _ => none
        | _ => none

/-- ZIP pattern: regex b-anchor d5 (-d4)? b-anchor (weight 0.5); the optional
group is greedy and backtracks to the bare five digits when its own trailing
word boundary fails. -/
def matchZipAt (prev : Option Char) (s : Str) : Option Nat :=
  if prevWord prev then none
  else
    match eatDigits 5 s with
    | none => none
    | some r1 =>
      let short : Option Nat :=
        if endNoWord r1 then some (s.length - r1.length) else none
      match r1 with
      | '-' :: r2 =>
        (match eatDigits 4 r2 with
         | some r3 =>
           if endNoWord r3 then some (s.length - r3.length) else short
         | none => short)
      | _ => short

/-- Date pattern: regex b-anchor d1-2 / d1-2 / d2-4 b-anchor (weight 0.4);
every counted quantifier is greedy, longer counts tried first. -/
def matchDateAt (prev : Option Char) (s : Str) : Option Nat :=
  if prevWord prev then none
  else
    ([2, 1] : List Nat).findSome? fun a =>
      match eatDigits a s with
      | some ('/' :: r1) =>
        ([2, 1] : List Nat).findSome? fun b =>
          match eatDigits b r1 with
          | some ('/' :: r2) =>
            ([4, 3, 2] : List Nat).findSome? fun c =>
              match eatDigits c r2 with
              | some r3 =>
                if endNoWord r3 then some (s.length - r3.length) else none
              | _ => none
          | _ => none
      | _ => none

/-- Street keyword alternation of the address pattern, in source order, each
optional-dot variant expanded greedily (dotted form before bare form). -/
def addrKeywords : List Str :=
  (["street", "st.", "st", "road", "rd.", "rd", "avenue", "ave.", "ave",
    "drive", "dr.", "dr", "lane", "ln.", "ln", "boulevard", "blvd.", "blvd"]).map
    String.data

/-- Tail of the address pattern: regex s+ [ws]+ d+, with the greedy
whitespace and word-or-space runs backtracking from their maximal lengths
until the digit run can start. -/
def matchAddrTail (s : Str) : Option Nat :=
  let wsMax := (s.takeWhile isWsC).length
  (downFrom wsMax).findSome? fun a =>
    let s1 := s.drop a
    let wMax := (s1.takeWhile fun c => isWordC c || isWsC c).length
    (downFrom wMax).findSome? fun b =>
      let s2 := s1.drop b
      let d := (s2.takeWhile isDigitC).length
      if 1 ≤ d then some (a + b + d) else none

/-- Address pattern: regex b-anchor (street|st.?|road|rd.?|avenue|ave.?|
drive|dr.?|lane|ln.?|boulevard|blvd.?) s+ [ws]+ d+, flags gi (weight 0.7). -/
def matchAddrAt (prev : Option Char) (s : Str) : Option Nat :=
  match s with
  | [] => none
  | c0 :: _ =>
    if prevWord prev = isWordC c0 then none
    else
      addrKeywords.findSome? fun kw =>
        match matchCI kw s with
        | some rest => (matchAddrTail rest).map fun n => kw.length + n
        | none => none

/-- Keyword alternation of the medical-record pattern, in source order. -/
def medKeywords : List Str :=
  (["medical record", "patient id", "mrn", "medical record number"]).map
    String.data

/-- Tail of the medical-record pattern: regex s* :? s* d+.  Digits are
neither whitespace nor the colon, so the greedy pieces are deterministic:
skip whitespace, an optional colon, more whitespace, then require a digit
run. -/
def matchMedTail (s : Str) : Option Nat :=
  let a := (s.takeWhile isWsC).length
  let s1 := s.drop a
  match s1 with
  | ':' :: r =>
    let b := (r.takeWhile isWsC).length
    let s2 := r.drop b
    let d := (s2.takeWhile isDigitC).length
    if 1 ≤ d then some (a + 1 + b + d) else none
  | _ =>
    let b := (s1.takeWhile isWsC).length
    let s2 := s1.drop b
    let d := (s2.takeWhile isDigitC).length
    if 1 ≤ d then some (a + b + d) else none

/-- Medical-record pattern: regex b-anchor (medical record|patient id|mrn|
medical record number) s* :? s* d+, flags gi (weight 0.9). -/
def matchMedAt (prev : Option Char) (s : Str) : Option Nat :=
  match s with
  | [] => none
  | c0 :: _ =>
    if prevWord prev = isWordC c0 then none
    else
      medKeywords.findSome? fun kw =>
        match matchCI kw s with
        | some rest => (matchMedTail rest).map fun n => kw.length + n
        | none => none

/-! Section: External capabilities and environment

The source loads bad-words, validator and libphonenumber-js behind
try/require and calls Mongoose User.findById inside try/catch.  These
collaborators are the fields of Env; calls that can throw are modelled with
Except Unit.  The fallback implementations installed by the source when a
library is absent are embedded below and packaged as fallbackEnv.
-/

/-- User record as consumed by getUserTrustScore: only the creation
timestamp (milliseconds since epoch) matters; none models a record whose
createdAt field is absent or falsy. -/
structure UserRec where
  createdAt : Option ℚ
deriving DecidableEq

/-- Environment of external capabilities of the moderation service. -/
structure Env where
  filterIsProfane : Str → Except Unit Bool
  isValidPhoneNumber : Str → Except Unit Bool
  findUser : Str → Except Unit (Option UserRec)
  nowMs : ℚ

/-- Value of an Except with a default for the thrown case. -/
def exceptGetD (e : Except Unit Bool) (d : Bool) : Bool :=
  match e with
  | .ok b => b
  | .error _ => d

/-- Did the call succeed with true? -/
def isOkTrue (e : Except Unit Bool) : Bool :=
  match e with
  | .ok b => b
  | .error _ => false

/-- Word list of the fallback profanity filter installed when the bad-words
package is missing (moderationService.js lines 27-39). -/
def basicProfanity : List Str :=
  (["fuck", "shit", "damn", "ass", "bitch", "sex", "porn"]).map String.data

/-- Case-insensitive whole-word test, regex b-anchor word b-anchor with the
i flag.  The escaping step of the source is the identity on these purely
alphabetic words. -/
def wbScan (word : Str) : Option Char → Str → Bool
  | _, [] => false
  | prev, c :: rest =>
    (match matchCI word (c :: rest) with
     | some r => !prevWord prev && endNoWord r
     | none => false)
    || wbScan word (some c) rest

/-- Fallback bad-words filter: word-boundary test of a basic list against the
lowercased text. -/
def fallbackIsProfane (text : Str) : Bool :=
  if text.length = 0 then false
  else basicProfanity.any fun w => wbScan w none (text.map Char.toLower)

/-- Fallback phone validator installed when libphonenumber-js is missing:
a bare test of the loose phone-shape regex. -/
def fallbackPhoneValid (phone : Str) : Bool :=
  !(gScan matchPhoneAt phone).isEmpty

/-- Environment consisting exactly of the fallback implementations that ship
inside the repository (no external library, no user store). -/
def fallbackEnv : Env where
  filterIsProfane := fun t => .ok (fallbackIsProfane t)
  isValidPhoneNumber := fun p => .ok (fallbackPhoneValid p)
  findUser := fun _ => .error ()
  nowMs := 0

/-! Section: PHI detector (moderationService.js lines 44-115)
-/

/-- Intermediate per-pattern-family record pushed by detectPHI (the source
field named matches is rendered matchList, matches being a reserved word). -/
structure PhiDetection where
  type : Str
  matchList : List Str
  weight : ℚ
deriving DecidableEq

/-- PHI_PATTERNS: (type, matcher, weight) rows in source order. -/
def PHI_PATTERNS : List (Str × (Option Char → Str → Option Nat) × ℚ) :=
  [(("phone".data), matchPhoneAt, 8/10),
   (("ssn".data), matchSsnAt, 1),
   (("email".data), matchEmailAt, 6/10),
   (("zip".data), matchZipAt, 5/10),
   (("date".data), matchDateAt, 4/10),
   (("address".data), matchAddrAt, 7/10),
   (("medical_record".data), matchMedAt, 9/10)]

/-- Detections produced by the PHI pattern table (patterns with no match are
skipped, mirroring the null check on String.match). -/
def phiBaseDetections (text : Str) : List PhiDetection :=
  PHI_PATTERNS.filterMap fun e =>
    let ms := gScan e.2.1 text
    if ms.isEmpty then none else some ⟨e.1, ms, e.2.2⟩

/-- Phone substrings that re-validate with the phone-validity capability
(region US); a throwing validation is skipped, as in the inner try/catch. -/
def phiValidPhones (env : Env) (text : Str) : List Str :=
  (gScan matchPhoneAt text).filter fun p => isOkTrue (env.isValidPhoneNumber p)

/-- Detections appended for validated phone numbers (weight 0.9 each). -/
def phiValidatedDetections (env : Env) (text : Str) : List PhiDetection :=
  (phiValidPhones env text).map fun p => ⟨("validated_phone".data), [p], 9/10⟩

/-- Running phiScore before the final clamp: each pattern family contributes
weight times its match count, and each validated phone adds a further 0.9. -/
def phiTotal (env : Env) (text : Str) : ℚ :=
  (PHI_PATTERNS.map fun e => e.2.2 * ((gScan e.2.1 text).length : ℚ)).sum
    + (9/10) * ((phiValidPhones env text).length : ℚ)

/-- Result record of detectPHI. -/
structure PhiResult where
  score : ℚ
  detections : List PhiDetection
deriving DecidableEq

/-- detectPHI: weighted pattern scan plus validated-phone bonus, the score
capped at 1.0. -/
def detectPHI (env : Env) (text : Str) : PhiResult :=
  { score := jsMin (phiTotal env text) 1
    detections := phiBaseDetections text ++ phiValidatedDetections env text }

/-! Section: Sales-pitch detector (moderationService.js lines 55-59 and 120-136)
-/

/-- SALES_KEYWORDS in source order. -/
def SALES_KEYWORDS : List Str :=
  (["buy now", "purchase", "special offer", "limited time", "act now",
    "call now", "dm me", "message me", "contact me for", "for sale",
    "discount", "deal", "cheap", "affordable", "best price", "lowest price"]).map
    String.data

/-- Result record of detectSalesPitch. -/
structure SalesResult where
  score : ℚ
  matchList : List Str
deriving DecidableEq

/-- detectSalesPitch: each keyword contained in the lowercased text adds a
flat 0.2, capped at 1.0. -/
def detectSalesPitch (text : Str) : SalesResult :=
  let lower := text.map Char.toLower
  let ms := SALES_KEYWORDS.filter fun kw => containsSub lower kw
  { score := jsMin ((2/10 : ℚ) * (ms.length : ℚ)) 1
    matchList := ms }

/-! Section: Spam detector (moderationService.js lines 62-67 and 141-160)
-/

/-- Repeated-character pattern: regex (.)(backref1)4+, weight 0.3; a dot
does not match line terminators, and the greedy counted backreference
consumes the whole run of five or more identical characters. -/
def matchRepeatAt (_ : Option Char) (s : Str) : Option Nat :=
  match s with
  | [] => none
  | c :: rest =>
    if c = '\n' || c = '\r' then none
    else
      let run := 1 + (rest.takeWhile (· = c)).length
      if 5 ≤ run then some run else none

/-- Leading-phrase alternation of the link-spam pattern, in source order. -/
def linkSpamKws : List Str :=
  (["click here", "visit", "check out", "link in bio"]).map String.data

/-- Match https?:// case-insensitively (greedy optional s), returning the
consumed length. -/
def matchHttpSlashes (s : Str) : Option Nat :=
  match matchCI ("http".data) s with
  | none => none
  | some r =>
    match r with
    | c :: r2 =>
      if c.toLower = 's' then
        match matchCI ("://".data) r2 with
        | some _ => some 8
        | none =>
          match matchCI ("://".data) r with
          | some _ => some 7
          | none => none
      else
        match matchCI ("://".data) r with
        | some _ => some 7
        | none => none
    | [] => none

/-- Link-spam pattern: regex b-anchor (click here|visit|check out|
link in bio) s+ https?://, flags gi, weight 0.7. -/
def matchLinkSpamAt (prev : Option Char) (s : Str) : Option Nat :=
  match s with
  | [] => none
  | c0 :: _ =>
    if prevWord prev = isWordC c0 then none
    else
      linkSpamKws.findSome? fun kw =>
        match matchCI kw s with
        | some rest =>
          let a := (rest.takeWhile isWsC).length
          if a = 0 then none
          else
            (matchHttpSlashes (rest.drop a)).map fun n => kw.length + a + n
        | none => none

/-- Bare URL-indicator pattern: regex (www.|http), flags gi, weight 0.5. -/
def matchUrlIndAt (_ : Option Char) (s : Str) : Option Nat :=
  match matchCI ("www.".data) s with
  | some _ => some 4
  | none =>
    match matchCI ("http".data) s with
    | some _ => some 4
    | none => none

/-- Scam keyword alternation, in source order. -/
def scamKws : List Str := (["free", "win", "prize", "congratulations"]).map String.data

/-- Call-to-action alternation of the scam pattern, in source order. -/
def scamVerbs : List Str := (["click", "visit", "call"]).map String.data

/-- Scam pattern: regex b-anchor (free|win|prize|congratulations) s+
(click|visit|call), flags gi, weight 0.8. -/
def matchScamAt (prev : Option Char) (s : Str) : Option Nat :=
  match s with
  | [] => none
  | c0 :: _ =>
    if prevWord prev = isWordC c0 then none
    else
      scamKws.findSome? fun kw =>
        match matchCI kw s with
        | some rest =>
          let a := (rest.takeWhile isWsC).length
          if a = 0 then none
          else
            scamVerbs.findSome? fun vb =>
              match matchCI vb (rest.drop a) with
              | some _ => some (kw.length + a + vb.length)
              | none => none
        | none => none

/-- SPAM_PATTERNS: (type, matcher, weight) rows in source order. -/
def SPAM_PATTERNS : List (Str × (Option Char → Str → Option Nat) × ℚ) :=
  [(("repeated_chars".data), matchRepeatAt, 3/10),
   (("link_spam".data), matchLinkSpamAt, 7/10),
   (("urls".data), matchUrlIndAt, 5/10),
   (("scam_keywords".data), matchScamAt, 8/10)]

/-- Intermediate record pushed by detectSpam (type and match count). -/
structure SpamDetection where
  type : Str
  matchCount : Nat
deriving DecidableEq

/-- Running spamScore: each family contributes weight times its match count
capped at three occurrences (patterns without matches contribute zero). -/
def spamTotal (text : Str) : ℚ :=
  (SPAM_PATTERNS.map fun e => e.2.2 * ((min (gScan e.2.1 text).length 3 : ℕ) : ℚ)).sum

/-- Result record of detectSpam. -/
structure SpamResult where
  score : ℚ
  detections : List SpamDetection
deriving DecidableEq

/-- detectSpam: weighted pattern scan with per-family occurrence cap 3,
clamped to 1.0. -/
def detectSpam (text : Str) : SpamResult :=
  { score := jsMin (spamTotal text) 1
    detections := SPAM_PATTERNS.filterMap fun e =>
      let n := (gScan e.2.1 text).length
      if n = 0 then none else some ⟨e.1, n⟩ }

/-! Section: Link-risk detector (moderationService.js lines 165-187)
-/

/-- Full-URL pattern: regex https?://[^s]+, flags gi. -/
def matchFullUrlAt (_ : Option Char) (s : Str) : Option Nat :=
  match matchHttpSlashes s with
  | none => none
  | some n =>
    let tail := (s.drop n).takeWhile fun c => !isWsC c
    if tail.length = 0 then none else some (n + tail.length)

/-- Core of the bare-domain pattern after the optional www. prefix:
regex [a-zA-Z0-9][a-zA-Z0-9-]1-61[a-zA-Z0-9] dot [a-zA-Z]2+, with the
greedy counted middle run backtracking from its maximal length. -/
def matchDomCore (s : Str) : Option Nat :=
  match s with
  | [] => none
  | c0 :: r0 =>
    if !isAlnumC c0 then none
    else
      let mid := r0.takeWhile fun c => isAlnumC c || c = '-'
      (downFrom (min mid.length 61)).findSome? fun k =>
        match r0.drop k with
        | c1 :: ('.' :: r2) =>
          if isAlnumC c1 then
            let m := r2.takeWhile Char.isAlpha
            if 2 ≤ m.length then some (1 + k + 1 + 1 + m.length) else none
          else none
        | _ => none

/-- Bare-domain pattern: regex b-anchor (www.)? [a-zA-Z0-9][a-zA-Z0-9-]1-61
[a-zA-Z0-9] dot [a-zA-Z]2+, flags gi; the optional www. is greedy and is
dropped on backtracking. -/
def matchDomAt (prev : Option Char) (s : Str) : Option Nat :=
  match s with
  | [] => none
  | c0 :: _ =>
    if prevWord prev = isWordC c0 then none
    else
      match matchCI ("www.".data) s with
      | some r =>
        (match matchDomCore r with
         | some n => some (4 + n)
         | none => matchDomCore s)
      | none => matchDomCore s

/-- Shortener denylist of detectLinks. -/
def suspiciousDomains : List Str :=
  (["bit.ly", "tinyurl", "t.co", "goo.gl"]).map String.data

/-- Result record of detectLinks. -/
structure LinkResult where
  score : ℚ
  urls : Nat
  domains : Nat
deriving DecidableEq

/-- detectLinks: 0.3 per URL, 0.1 per bare domain, a flat 0.4 if any URL
contains a known shortener, clamped to 1.0. -/
def detectLinks (text : Str) : LinkResult :=
  let urls := gScan matchFullUrlAt text
  let doms := gScan matchDomAt text
  let base : ℚ := (3/10) * (urls.length : ℚ) + (1/10) * (doms.length : ℚ)
  let hasSusp := urls.any fun u => suspiciousDomains.any fun d => containsSub u d
  let risk := if hasSusp then base + 4/10 else base
  { score := jsMin risk 1
    urls := urls.length
    domains := doms.length }

/-! Section: Toxicity detector (moderationService.js lines 193-354)
-/

/-- Separator class removed by the normalization pipeline: whitespace plus
the characters - _ . * + # @ and the exclamation mark. -/
def isSepC (c : Char) : Bool :=
  isWsC c || c = '-' || c = '_' || c = '.' || c = '*' || c = '+' || c = '#'
    || c = '@' || c = '!'

/-- Leetspeak substitutions of the normalization pipeline.  The source
performs eleven sequential global replaces; since no replacement target is
itself a later source character, the sequence equals this single-character
map (the entries for the exclamation mark and the at-sign are unreachable
because the separator strip has already removed those characters). -/
def leetMap (c : Char) : Char :=
  if c = '0' then 'o'
  else if c = '1' then 'i'
  else if c = '3' then 'e'
  else if c = '4' then 'a'
  else if c = '5' then 's'
  else if c = '7' then 't'
  else if c = '8' then 'b'
  else if c = '9' then 'g'
  else if c = '$' then 's'
  else if c = '!' then 'i'
  else if c = '@' then 'a'
  else c

/-- Worker of the repeated-character collapse, tracking the previous
character and how many consecutive copies of it have been emitted. -/
def collapseAux (prev : Char) (cnt : Nat) : Str → Str
  | [] => []
  | c :: rest =>
    if c = prev then
      if 2 ≤ cnt then collapseAux prev cnt rest
      else c :: collapseAux prev (cnt + 1) rest
    else c :: collapseAux c 1 rest

/-- Collapse of repeated characters, regex (.)(backref1)2+ replaced by two
copies: every maximal run of three or more identical characters becomes
exactly two. -/
def collapseRuns : Str → Str
  | [] => []
  | c :: rest => c :: collapseAux c 1 rest

/-- normalizeTextForDetection: lowercase, strip separators, undo leetspeak,
collapse repeated characters (non-string or empty input yields the empty
string, which the composition already produces on the empty list). -/
def normalizeTextForDetection (text : Str) : Str :=
  collapseRuns (((text.map Char.toLower).filter fun c => !isSepC c).map leetMap)

/-- Curated profanity pattern list of checkProfanityPatterns, in source
order. -/
def profanityPatterns : List Str :=
  (["masturbat", "mastrbat", "mstrbat",
    "nigger", "nigga", "niga", "ngga", "nger",
    "bastard", "bastrd", "bstrd",
    "violence", "vlnce", "violnc",
    "suicide", "suicid", "sucide",
    "murder", "murdr", "mrdr",
    "orgasm", "orgsm", "orgas",
    "erotic", "erotc", "erotik",
    "porn", "prn", "p0rn", "pornn",
    "naked", "nakd", "nked",
    "retard", "retrd", "rtard", "retad",
    "bitch", "bich", "bitchh", "btch",
    "pussy", "puss", "pusy", "pssy",
    "whore", "whor", "hore", "whoar",
    "abuse", "abus", "abse",
    "stupid", "stpid", "stupd",
    "idiot", "idot", "idit",
    "moron", "mron", "morrn",
    "fuck", "fuk", "fcuk", "fuc", "fuq",
    "shit", "sht", "shyt", "shitt",
    "damn", "damm", "dam",
    "crap", "crp", "krap",
    "piss", "pis", "pss",
    "dick", "dik", "dck", "dic",
    "cock", "cok", "kok", "cokc",
    "cunt", "cnt", "kunt",
    "slut", "slt", "slutt",
    "nude", "nud", "nudee",
    "kill", "kil", "kll",
    "hate", "hat", "hte",
    "rape", "rap", "rpe",
    "dumb", "dmb", "dum",
    "ass", "arse",
    "sex", "sx", "sexx", "seks"]).map String.data

/-- Test of the class [a-z0-9] against an optional character; the JavaScript
source passes the empty string for an out-of-range index here, and the test
on the empty string is false. -/
def testAlnumOpt : Option Char → Bool
  | some c => isLowerAlnum c
  | none => false

/-- Test of the class [a-z0-9] against a context character by index; an
out-of-range JavaScript index yields undefined, which the regex test coerces
to the string form of undefined — containing letters, hence true. -/
def testAlnumIdx (ctx : Str) (j : Nat) : Bool :=
  match charAt ctx j with
  | some c => isLowerAlnum c
  | none => true

/-- Body of the pattern loop of checkProfanityPatterns for one pattern:
locate the first occurrence, accept it at a word boundary, and for short
patterns apply the stricter two-character context check; a long pattern
found anywhere is accepted. -/
def checkPatternAt (t : Str) (pat : Str) : Bool :=
  if pat.length < 2 then false
  else
    match indexOfSub t pat with
    | none => false
    | some idx =>
      let n := t.length
      let plen := pat.length
      let before := if 0 < idx then charAt t (idx - 1) else none
      let after := if idx + plen < n then charAt t (idx + plen) else none
      if idx = 0 || idx + plen = n || !testAlnumOpt before || !testAlnumOpt after
      then true
      else if plen ≤ 3 then
        let ctx := (t.drop (idx - 2)).take (min n (idx + plen + 2) - (idx - 2))
        (ctx == pat)
          || (leadsWith pat ctx && !testAlnumIdx ctx plen)
          || (trailsWith pat ctx && !testAlnumIdx ctx (ctx.length - plen - 1))
      else true

/-- checkProfanityPatterns over the normalized text. -/
def checkProfanityPatterns (t : Str) : Bool :=
  if t.length < 2 then false
  else profanityPatterns.any fun pat => checkPatternAt t pat

/-- Direct whole-word list of detectToxicity method 3, in source order. -/
def commonProfanity : List Str :=
  (["fuck", "shit", "damn", "ass", "bitch", "sex", "porn", "kill", "hate",
    "abuse"]).map String.data

/-- Method 1 of detectToxicity: the external profanity-dictionary
capability; a throwing call is caught and leaves the signal false. -/
def toxMethod1 (env : Env) (text : Str) : Bool :=
  exceptGetD (env.filterIsProfane text) false

/-- Method 2 of detectToxicity: obfuscation-resistant match on the
normalized text. -/
def toxMethod2 (text : Str) : Bool :=
  checkProfanityPatterns (normalizeTextForDetection text)

/-- Method 3 of detectToxicity: direct word-boundary check of the common
profanity list against the lowercased original text. -/
def toxMethod3 (text : Str) : Bool :=
  commonProfanity.any fun w => wbScan w none (text.map Char.toLower)

/-- Result record of detectToxicity. -/
structure ToxResult where
  score : ℚ
  isProfane : Bool
deriving DecidableEq

/-- detectToxicity: binary score — 1.0 when any of the three methods fires,
0.0 otherwise (and 0.0 for missing or empty text). -/
def detectToxicity (env : Env) (text : Str) : ToxResult :=
  if text.length = 0 then { score := 0, isProfane := false }
  else if toxMethod1 env text || toxMethod2 text || toxMethod3 text then
    { score := 1, isProfane := true }
  else { score := 0, isProfane := false }

/-! Section: Trust score provider (moderationService.js lines 359-383)
-/

/-- getUserTrustScore: base 0.7, adjusted for account age when the looked-up
user record exists and has a truthy creation timestamp, capped at 1.0; a
throwing lookup returns the 0.5 default. -/
def getUserTrustScore (env : Env) (userId : Str) : ℚ :=
  match env.findUser userId with
  | .error _ => 1/2
  | .ok u =>
    let trustScore : ℚ :=
      match u with
      | some r =>
        match r.createdAt with
        | some created =>
          let accountAgeDays : ℚ := (env.nowMs - created) / (1000 * 60 * 60 * 24)
          let t1 : ℚ := if accountAgeDays > 30 then 7/10 + 1/10 else 7/10
          if accountAgeDays > 90 then t1 + 1/10 else t1
        | none => 7/10
      | none => 7/10
    jsMin trustScore 1

/-! Section: Decision engine (moderationService.js lines 388-489)
-/

/-- Moderation statuses. -/
inductive Status
  | ALLOW
  | SOFT_BLOCK
  | QUARANTINE
  | REJECT
deriving DecidableEq

/-- Score vector assembled by scan. -/
structure Scores where
  phi_score : ℚ
  spam_score : ℚ
  sales_pitch_score : ℚ
  toxicity_score : ℚ
  link_risk_score : ℚ
  user_trust_score : ℚ
deriving DecidableEq

/-- Detected span (the source field named end is rendered stop, end being a
reserved word); offsets come from a first-occurrence lookup. -/
structure Span where
  text : Str
  type : Str
  subtype : Str
  start : Int
  stop : Int
deriving DecidableEq

/-- Result of scan.  The reason, timestamp and context fields are optional
because the invalid-input early return carries a reason but omits timestamp
and context, while the main return carries timestamp and context but no
reason. -/
structure ModerationResult (κ : Type) where
  status : Status
  scores : Scores
  flags : List Str
  detectedSpans : List Span
  reason : Option Str
  timestamp : Option ℚ
  context : Option κ

/-- Argument object of scan. -/
structure ScanInput (κ : Type) where
  text : Option Str
  userId : Option Str
  context : κ

/-- Early return of scan for missing, non-string or empty text. -/
def invalidScanResult (κ : Type) : ModerationResult κ :=
  { status := .REJECT
    scores :=
      { phi_score := 0, spam_score := 0, sales_pitch_score := 0
        toxicity_score := 0, link_risk_score := 0, user_trust_score := 0 }
    flags := []
    detectedSpans := []
    reason := some ("Invalid input".data)
    timestamp := none
    context := none }

/-- Score vector computed by scan on valid text (the trust score defaults to
0.5 when no truthy userId is supplied). -/
def scanScores (env : Env) (text : Str) (userId : Option Str) : Scores :=
  { phi_score := (detectPHI env text).score
    spam_score := (detectSpam text).score
    sales_pitch_score := (detectSalesPitch text).score
    toxicity_score := (detectToxicity env text).score
    link_risk_score := (detectLinks text).score
    user_trust_score :=
      match userId with
      | some uid => if uid.length = 0 then 1/2 else getUserTrustScore env uid
      | none => 1/2 }

/-- Detected spans: every PHI match located by first occurrence in the
original text. -/
def scanSpans (env : Env) (text : Str) : List Span :=
  ((detectPHI env text).detections).flatMap fun det =>
    det.matchList.map fun m =>
      let i : Int :=
        match indexOfSub text m with
        | some k => (k : Int)
        | none => -1
      { text := m, type := ("phi".data), subtype := det.type, start := i
        stop := i + (m.length : Int) }

/-- Flags derived from score thresholds, in source order. -/
def scanFlags (s : Scores) : List Str :=
  (if s.phi_score > 3/10 then [("phi_detected".data)] else [])
    ++ (if s.spam_score > 1/2 then [("spam_detected".data)] else [])
    ++ (if s.sales_pitch_score > 6/10 then [("sales_pitch".data)] else [])
    ++ (if s.toxicity_score > 0 then [("toxicity".data)] else [])
    ++ (if s.link_risk_score > 6/10 then [("suspicious_links".data)] else [])

/-- Status selection of scan (moderationService.js lines 446-479): the
if/else-if chain over the score vector. -/
def decideStatus (s : Scores) : Status :=
  if s.toxicity_score > 0 then .REJECT
  else if s.phi_score > 1/2 then .QUARANTINE
  else if s.sales_pitch_score > 7/10 ∧ s.user_trust_score < 1/2 then .REJECT
  else if s.spam_score > 7/10 then .QUARANTINE
  else if (s.phi_score > 2/10 ∧ s.link_risk_score > 4/10)
      ∨ (s.spam_score > 4/10 ∧ s.sales_pitch_score > 1/2) then .QUARANTINE
  else if s.phi_score > 2/10 ∨ s.spam_score > 3/10 ∨ s.link_risk_score > 1/2
    then .SOFT_BLOCK
  else .ALLOW

/-- Main moderation scan: early-reject invalid input, otherwise assemble the
score vector, flags, spans and status, and echo the context with a
completion timestamp. -/
def scan {κ : Type} (env : Env) (input : ScanInput κ) : ModerationResult κ :=
  match input.text with
  | none => invalidScanResult κ
  | some t =>
    if t.length = 0 then invalidScanResult κ
    else
      let scores := scanScores env t input.userId
      { status := decideStatus scores
        scores := scores
        flags := scanFlags scores
        detectedSpans := scanSpans env t
        reason := none
        timestamp := some env.nowMs
        context := some input.context }

/-! Section: Specification-side definitions and shared lemmas
-/

/-- The six cascade rules exactly as the specification words them, as an
ordered (condition, status) list. -/
def specCascadeRules : List ((Scores → Bool) × Status) :=
  [(fun s => decide (s.toxicity_score > 0), .REJECT),
   (fun s => decide (s.phi_score > 1/2), .QUARANTINE),
   (fun s => decide (s.sales_pitch_score > 7/10) &&
      decide (s.user_trust_score < 1/2), .REJECT),
   (fun s => decide (s.spam_score > 7/10), .QUARANTINE),
   (fun s => (decide (s.phi_score > 2/10) && decide (s.link_risk_score > 4/10))
      || (decide (s.spam_score > 4/10) && decide (s.sales_pitch_score > 1/2)),
      .QUARANTINE),
   (fun s => decide (s.phi_score > 2/10) || decide (s.spam_score > 3/10)
      || decide (s.link_risk_score > 1/2), .SOFT_BLOCK)]

/-- First-match-wins evaluation of an ordered rule list, defaulting to
ALLOW. -/
def firstMatchStatus : List ((Scores → Bool) × Status) → Scores → Status
  | [], _ => .ALLOW
  | (p, st) :: rest, s => if p s then st else firstMatchStatus rest s

/-- The decision cascade as the specification states it: the ordered rules
evaluated top to bottom, first matching rule wins, otherwise ALLOW. -/
def specCascade (s : Scores) : Status := firstMatchStatus specCascadeRules s

theorem decideStatus_eq_specCascade (s : Scores) :
    decideStatus s = specCascade s := by
  simp only [decideStatus, specCascade, specCascadeRules, firstMatchStatus,
    decide_eq_true_eq, Bool.and_eq_true, Bool.or_eq_true]
  split_ifs <;> first | rfl | tauto

theorem scan_valid_eq {κ : Type} (env : Env) (t : Str) (uid : Option Str)
    (ctx : κ) (ht : ¬t.length = 0) :
    scan env ⟨some t, uid, ctx⟩ =
      { status := decideStatus (scanScores env t uid)
        scores := scanScores env t uid
        flags := scanFlags (scanScores env t uid)
        detectedSpans := scanSpans env t
        reason := none
        timestamp := some env.nowMs
        context := some ctx } := by
  simp [scan, ht]

/-! Section: Claim C1
-/

/-- C1: for every valid text input (non-empty string), scan selects its
final status by evaluating exactly the ordered first-match-wins cascade of
the specification over the computed score vector; in particular any input
with toxicity_score > 0 yields REJECT regardless of all other scores. -/
theorem scan_follows_spec_cascade {κ : Type} (env : Env) (t : Str)
    (uid : Option Str) (ctx : κ) (ht : t ≠ []) :
    (scan env ⟨some t, uid, ctx⟩).status
      = specCascade (scan env ⟨some t, uid, ctx⟩).scores
    ∧ ((scan env ⟨some t, uid, ctx⟩).scores.toxicity_score > 0 →
        (scan env ⟨some t, uid, ctx⟩).status = Status.REJECT) := by
  have hlen : ¬t.length = 0 := by simpa using ht
  rw [scan_valid_eq env t uid ctx hlen]
  refine ⟨decideStatus_eq_specCascade _, fun htox => ?_⟩
  simp only [decideStatus, if_pos htox]

/-- Witness for C1 at a concrete harmless input under the in-repository
fallback environment. -/
theorem scan_follows_spec_cascade_witness :
    (scan fallbackEnv ⟨some ("hello there".data), none, ()⟩).status
      = specCascade (scan fallbackEnv ⟨some ("hello there".data), none, ()⟩).scores :=
  (scan_follows_spec_cascade fallbackEnv ("hello there".data) none ()
    (by decide)).1

/-! Section: Claim C2
-/

/-- Membership in the closed unit interval. -/
def inUnit (x : ℚ) : Prop := 0 ≤ x ∧ x ≤ 1

theorem jsMin_one_inUnit {a : ℚ} (ha : 0 ≤ a) : inUnit (jsMin a 1) := by
  unfold jsMin
  split_ifs with h
  · exact ⟨ha, h⟩
  · exact ⟨zero_le_one, le_rfl⟩

theorem phiTotal_nonneg (env : Env) (t : Str) : 0 ≤ phiTotal env t := by
  unfold phiTotal
  have h1 : 0 ≤ (PHI_PATTERNS.map fun e =>
      e.2.2 * ((gScan e.2.1 t).length : ℚ)).sum := by
    apply List.sum_nonneg
    intro x hx
    rw [List.mem_map] at hx
    obtain ⟨e, he, rfl⟩ := hx
    have hw : 0 ≤ e.2.2 := by
      simp only [PHI_PATTERNS, List.mem_cons, List.not_mem_nil, or_false] at he
      rcases he with rfl | rfl | rfl | rfl | rfl | rfl | rfl <;> norm_num
    positivity
  have h2 : 0 ≤ (9/10 : ℚ) * ((phiValidPhones env t).length : ℚ) := by positivity
  linarith

theorem spamTotal_nonneg (t : Str) : 0 ≤ spamTotal t := by
  unfold spamTotal
  apply List.sum_nonneg
  intro x hx
  rw [List.mem_map] at hx
  obtain ⟨e, he, rfl⟩ := hx
  have hw : 0 ≤ e.2.2 := by
    simp only [SPAM_PATTERNS, List.mem_cons, List.not_mem_nil, or_false] at he
    rcases he with rfl | rfl | rfl | rfl <;> norm_num
  positivity

theorem detectPHI_inUnit (env : Env) (t : Str) :
    inUnit (detectPHI env t).score :=
  jsMin_one_inUnit (phiTotal_nonneg env t)

theorem detectSpam_inUnit (t : Str) : inUnit (detectSpam t).score :=
  jsMin_one_inUnit (spamTotal_nonneg t)

theorem detectSalesPitch_inUnit (t : Str) : inUnit (detectSalesPitch t).score := by
  apply jsMin_one_inUnit
  positivity

theorem detectLinks_inUnit (t : Str) : inUnit (detectLinks t).score := by
  unfold detectLinks
  apply jsMin_one_inUnit
  split_ifs <;> positivity

theorem detectToxicity_inUnit (env : Env) (t : Str) :
    inUnit (detectToxicity env t).score := by
  unfold detectToxicity
  split_ifs <;> exact ⟨by norm_num, by norm_num⟩

theorem getUserTrustScore_inUnit (env : Env) (uid : Str) :
    inUnit (getUserTrustScore env uid) := by
  unfold getUserTrustScore
  split
  · exact ⟨by norm_num, by norm_num⟩
  · apply jsMin_one_inUnit
    split
    · split
      · dsimp only
        split_ifs <;> norm_num
      · norm_num
    · norm_num

theorem trust_component_inUnit (env : Env) (uid : Option Str) (t : Str) :
    inUnit (scanScores env t uid).user_trust_score := by
  unfold scanScores
  simp only
  split
  · split_ifs
    · exact ⟨by norm_num, by norm_num⟩
    · exact getUserTrustScore_inUnit env _
  · exact ⟨by norm_num, by norm_num⟩

/-- C2: for every input to scan — valid or invalid, with or without a
user id — each of the six fields of the returned score vector lies in the
closed interval from 0.0 to 1.0, the clamping being performed inside the
individual detectors. -/
theorem scan_scores_in_unit_interval {κ : Type} (env : Env)
    (input : ScanInput κ) :
    inUnit (scan env input).scores.phi_score
    ∧ inUnit (scan env input).scores.spam_score
    ∧ inUnit (scan env input).scores.sales_pitch_score
    ∧ inUnit (scan env input).scores.toxicity_score
    ∧ inUnit (scan env input).scores.link_risk_score
    ∧ inUnit (scan env input).scores.user_trust_score := by
  obtain ⟨text, uid, ctx⟩ := input
  match text with
  | none =>
    refine ⟨?_, ?_, ?_, ?_, ?_, ?_⟩ <;>
      exact ⟨by norm_num [scan, invalidScanResult], by norm_num [scan, invalidScanResult]⟩
  | some t =>
    by_cases hlen : t.length = 0
    · simp only [scan, hlen, if_pos]
      refine ⟨?_, ?_, ?_, ?_, ?_, ?_⟩ <;>
        exact ⟨by norm_num [invalidScanResult], by norm_num [invalidScanResult]⟩
    · rw [scan_valid_eq env t uid ctx hlen]
      exact ⟨detectPHI_inUnit env t, detectSpam_inUnit t,
        detectSalesPitch_inUnit t, detectToxicity_inUnit env t,
        detectLinks_inUnit t, trust_component_inUnit env uid t⟩

/-! Section: Claim C3
-/

/-- C3: for every non-empty input text, detectToxicity returns a score that
is exactly 0.0 or exactly 1.0; it returns 1.0 with isProfane true exactly
when one of the three signals fires (external dictionary, normalized
obfuscation-resistant match, direct word-boundary match); and a throwing
external dictionary is absorbed — the result is then exactly the one
computed from the other two signals. -/
theorem detectToxicity_binary_three_signals (env : Env) (t : Str)
    (ht : t ≠ []) :
    ((detectToxicity env t).score = 0 ∨ (detectToxicity env t).score = 1)
    ∧ (detectToxicity env t = { score := 1, isProfane := true } ↔
        (toxMethod1 env t = true ∨ toxMethod2 t = true ∨ toxMethod3 t = true))
    ∧ (env.filterIsProfane t = .error () →
        detectToxicity env t =
          if toxMethod2 t || toxMethod3 t then
            { score := 1, isProfane := true }
          else { score := 0, isProfane := false }) := by
  have hlen : ¬t.length = 0 := by simpa using ht
  refine ⟨?_, ?_, ?_⟩
  · unfold detectToxicity
    split_ifs <;> simp
  · unfold detectToxicity
    rw [if_neg hlen]
    constructor
    · intro h
      split_ifs at h with hc
      · simp only [Bool.or_eq_true] at hc
        tauto
      · exact absurd h (by simp)
    · intro h
      have hc : (toxMethod1 env t || toxMethod2 t || toxMethod3 t) = true := by
        rcases h with h | h | h <;> simp [h]
      rw [if_pos hc]
  · intro herr
    have h1 : toxMethod1 env t = false := by
      unfold toxMethod1
      rw [herr]
      rfl
    unfold detectToxicity
    rw [if_neg hlen, h1]
    simp only [Bool.false_or]

/-- Witness for C3 at a concrete profane input under the fallback
environment. -/
theorem detectToxicity_binary_three_signals_witness :
    (detectToxicity fallbackEnv ("damn".data)).score = 0
    ∨ (detectToxicity fallbackEnv ("damn".data)).score = 1 :=
  (detectToxicity_binary_three_signals fallbackEnv ("damn".data) (by decide)).1

/-! Section: Claim C4
-/

/-- C4: whenever the text is missing, not a string, or empty, scan returns
normally with status REJECT, all six scores 0, empty flags, empty detected
spans, and the reason Invalid input. -/
theorem scan_invalid_input_result {κ : Type} (env : Env) (uid : Option Str)
    (ctx : κ) (text : Option Str) (h : text = none ∨ text = some []) :
    (scan env ⟨text, uid, ctx⟩).status = Status.REJECT
    ∧ (scan env ⟨text, uid, ctx⟩).scores =
        { phi_score := 0, spam_score := 0, sales_pitch_score := 0
          toxicity_score := 0, link_risk_score := 0, user_trust_score := 0 }
    ∧ (scan env ⟨text, uid, ctx⟩).flags = []
    ∧ (scan env ⟨text, uid, ctx⟩).detectedSpans = []
    ∧ (scan env ⟨text, uid, ctx⟩).reason = some ("Invalid input".data) := by
  rcases h with rfl | rfl <;>
    exact ⟨rfl, rfl, rfl, rfl, rfl⟩

/-- Witness for C4 at the empty string. -/
theorem scan_invalid_input_result_witness :
    (scan fallbackEnv ⟨some [], none, ()⟩).status = Status.REJECT
    ∧ (scan fallbackEnv ⟨some [], none, ()⟩).reason
        = some ("Invalid input".data) :=
  ⟨(scan_invalid_input_result fallbackEnv none () (some []) (Or.inr rfl)).1,
   (scan_invalid_input_result fallbackEnv none () (some []) (Or.inr rfl)).2.2.2.2⟩

/-! Section: Claim C5
-/

/-- Environment in which the user lookup succeeds but finds no record
(Mongoose findById resolving to null for an unknown id). -/
def absentUserEnv : Env := { fallbackEnv with findUser := fun _ => .ok none }

/-- C5 counterexample: when the user record is absent but the lookup itself
succeeds, getUserTrustScore returns the 0.7 base — not the 0.5 default the
claim asserts for a missing record. -/
theorem getUserTrustScore_absent_is_base :
    absentUserEnv.findUser ("user1".data) = .ok none
    ∧ getUserTrustScore absentUserEnv ("user1".data) = 7/10
    ∧ ¬getUserTrustScore absentUserEnv ("user1".data) = 1/2 := by
  have h : getUserTrustScore absentUserEnv ("user1".data) = 7/10 := by
    show jsMin (7/10 : ℚ) 1 = 7/10
    unfold jsMin
    rw [if_pos (by norm_num)]
  exact ⟨rfl, h, by rw [h]; norm_num⟩

/-- C5 (amended): the 0.5 default is used when no userId is supplied to scan
or when the lookup throws; a lookup that succeeds with no record, or with a
record lacking a creation timestamp, yields the plain base 0.7; an existing
record with a creation timestamp yields 0.7 plus 0.1 per exceeded age
threshold (30 and 90 days), capped at 1.0. -/
theorem getUserTrustScore_behaviour (env : Env) (uid : Str) :
    (env.findUser uid = .error () → getUserTrustScore env uid = 1/2)
    ∧ (env.findUser uid = .ok none → getUserTrustScore env uid = 7/10)
    ∧ (env.findUser uid = .ok (some { createdAt := none }) →
        getUserTrustScore env uid = 7/10)
    ∧ (∀ created : ℚ,
        env.findUser uid = .ok (some { createdAt := some created }) →
        getUserTrustScore env uid =
          jsMin ((7/10 : ℚ)
            + (if (env.nowMs - created) / (1000 * 60 * 60 * 24) > 30
               then 1/10 else 0)
            + (if (env.nowMs - created) / (1000 * 60 * 60 * 24) > 90
               then 1/10 else 0)) 1)
    ∧ (∀ (t : Str),
        (scanScores env t none).user_trust_score = 1/2) := by
  refine ⟨?_, ?_, ?_, ?_, ?_⟩
  · intro h
    unfold getUserTrustScore
    rw [h]
  · intro h
    unfold getUserTrustScore
    rw [h]
    show jsMin (7/10 : ℚ) 1 = 7/10
    unfold jsMin
    rw [if_pos (by norm_num)]
  · intro h
    unfold getUserTrustScore
    rw [h]
    show jsMin (7/10 : ℚ) 1 = 7/10
    unfold jsMin
    rw [if_pos (by norm_num)]
  · intro created h
    unfold getUserTrustScore
    rw [h]
    dsimp only
    congr 1
    split_ifs <;> norm_num
  · intro t
    rfl

/-- Witness for C5 at the throwing lookup of the fallback environment and at
the absent-record environment. -/
theorem getUserTrustScore_behaviour_witness :
    getUserTrustScore fallbackEnv ("user1".data) = 1/2
    ∧ getUserTrustScore absentUserEnv ("user1".data) = 7/10 :=
  ⟨(getUserTrustScore_behaviour fallbackEnv ("user1".data)).1 rfl,
   (getUserTrustScore_behaviour absentUserEnv ("user1".data)).2.1 rfl⟩

/-! Section: Claim C6
-/

/-- C6 counterexample: the normalization pipeline maps f4ck to fack, which
matches no curated profanity pattern; with the repository's own fallback
profanity filter the toxicity score of f4ck is 0.0, not 1.0. -/
theorem f4ck_not_detected :
    normalizeTextForDetection ("f4ck".data) = ("fack".data)
    ∧ toxMethod2 ("f4ck".data) = false
    ∧ (detectToxicity fallbackEnv ("f4ck".data)).score = 0
    ∧ ¬(detectToxicity fallbackEnv ("f4ck".data)).score = 1 := by
  refine ⟨by decide, by decide, by decide, by decide⟩

/-- C6 (amended): the inputs f u c k and sh1t each yield toxicity score 1.0
under every environment (the normalization pipeline reduces them to forms
matched by the pattern list); f4ck however normalizes to fack, which matches
no pattern, so its toxicity is 0.0 whenever the external profanity
dictionary does not flag it. -/
theorem obfuscated_profanity_detection (env : Env) :
    (detectToxicity env ("f u c k".data)).score = 1
    ∧ (detectToxicity env ("sh1t".data)).score = 1
    ∧ (toxMethod1 env ("f4ck".data) = false →
        (detectToxicity env ("f4ck".data)).score = 0) := by
  refine ⟨?_, ?_, ?_⟩
  · have h2 : toxMethod2 ("f u c k".data) = true := by decide
    unfold detectToxicity
    rw [if_neg (by decide), h2]
    simp
  · have h2 : toxMethod2 ("sh1t".data) = true := by decide
    unfold detectToxicity
    rw [if_neg (by decide), h2]
    simp
  · intro h1
    have h2 : toxMethod2 ("f4ck".data) = false := by decide
    have h3 : toxMethod3 ("f4ck".data) = false := by decide
    unfold detectToxicity
    rw [if_neg (by decide), h1, h2, h3]
    rfl

/-- Witness for C6 under the fallback environment. -/
theorem obfuscated_profanity_detection_witness :
    toxMethod1 fallbackEnv ("f4ck".data) = false
    ∧ (detectToxicity fallbackEnv ("f4ck".data)).score = 0
    ∧ (detectToxicity fallbackEnv ("f u c k".data)).score = 1 :=
  ⟨by decide, (obfuscated_profanity_detection fallbackEnv).2.2 (by decide),
   (obfuscated_profanity_detection fallbackEnv).1⟩

/-! Section: Claim C7
-/

/-- The phone test input of the specification. -/
def callText : Str := ("Call me at 555-123-4567".data)

/-- The phone substring the loose phone pattern extracts from callText. -/
def phoneHit : Str := ("555-123-4567".data)

/-- C7: on the input Call me at 555-123-4567, the running PHI total is the
0.8 base phone weight plus a further 0.9 exactly when the phone-validity
capability re-validates the number (the double-count before the clamp); the
clamped phi score exceeds 0.5 either way, and scan quarantines the input
whenever the external profanity dictionary does not flag it. -/
theorem scan_phone_quarantine {κ : Type} (env : Env) (uid : Option Str)
    (ctx : κ) (hfilter : toxMethod1 env callText = false) :
    phiTotal env callText
      = 8/10 + (if isOkTrue (env.isValidPhoneNumber phoneHit)
                then (9/10 : ℚ) else 0)
    ∧ (detectPHI env callText).score > 1/2
    ∧ (scan env ⟨some callText, uid, ctx⟩).status = Status.QUARANTINE := by
  have hphones : gScan matchPhoneAt callText = [phoneHit] := by decide
  have hvalid : phiValidPhones env callText =
      if isOkTrue (env.isValidPhoneNumber phoneHit) then [phoneHit] else [] := by
    unfold phiValidPhones
    rw [hphones]
    simp only [List.filter_cons, List.filter_nil]
  have htotal : phiTotal env callText
      = 8/10 + (if isOkTrue (env.isValidPhoneNumber phoneHit)
                then (9/10 : ℚ) else 0) := by
    unfold phiTotal
    have hbase : ((PHI_PATTERNS.map fun e =>
        e.2.2 * ((gScan e.2.1 callText).length : ℚ)).sum : ℚ) = 8/10 := by
      have l1 : (gScan matchPhoneAt callText).length = 1 := by rw [hphones]; rfl
      have l2 : (gScan matchSsnAt callText).length = 0 := by decide
      have l3 : (gScan matchEmailAt callText).length = 0 := by decide
      have l4 : (gScan matchZipAt callText).length = 0 := by decide
      have l5 : (gScan matchDateAt callText).length = 0 := by decide
      have l6 : (gScan matchAddrAt callText).length = 0 := by decide
      have l7 : (gScan matchMedAt callText).length = 0 := by decide
      simp only [PHI_PATTERNS, List.map_cons, List.map_nil, List.sum_cons,
        List.sum_nil, l1, l2, l3, l4, l5, l6, l7]
      norm_num
    rw [hbase, hvalid]
    split_ifs <;> norm_num
  have hscore : (detectPHI env callText).score
      = if isOkTrue (env.isValidPhoneNumber phoneHit) then 1 else 8/10 := by
    unfold detectPHI
    simp only
    rw [htotal]
    split_ifs <;> norm_num [jsMin]
  have hgt : (detectPHI env callText).score > 1/2 := by
    rw [hscore]
    split_ifs <;> norm_num
  have htox : (detectToxicity env callText).score = 0 := by
    have h2 : toxMethod2 callText = false := by decide
    have h3 : toxMethod3 callText = false := by decide
    unfold detectToxicity
    rw [if_neg (by decide), hfilter, h2, h3]
    rfl
  refine ⟨htotal, hgt, ?_⟩
  rw [scan_valid_eq env callText uid ctx (by decide)]
  show decideStatus (scanScores env callText uid) = Status.QUARANTINE
  have hs1 : (scanScores env callText uid).toxicity_score = 0 := htox
  have hs2 : (scanScores env callText uid).phi_score > 1/2 := hgt
  unfold decideStatus
  rw [if_neg (by simp [hs1]), if_pos hs2]

/-- Witness for C7 under the fallback environment, whose phone validator
accepts the number, realising the 1.7 pre-clamp double-count. -/
theorem scan_phone_quarantine_witness :
    toxMethod1 fallbackEnv callText = false
    ∧ phiTotal fallbackEnv callText
        = 8/10 + (if isOkTrue (fallbackEnv.isValidPhoneNumber phoneHit)
                  then (9/10 : ℚ) else 0)
    ∧ (scan fallbackEnv ⟨some callText, none, ()⟩).status = Status.QUARANTINE :=
  ⟨by decide,
   (scan_phone_quarantine fallbackEnv none () (by decide)).1,
   (scan_phone_quarantine fallbackEnv none () (by decide)).2.2⟩

/-! Section: Claim C9
-/

/-- C9 counterexample: the invalid-input early return of scan omits both the
timestamp and the echoed context, so not every result carries them. -/
theorem scan_invalid_omits_timestamp_context :
    (scan fallbackEnv ⟨some [], none, (0 : Nat)⟩).timestamp = none
    ∧ (scan fallbackEnv ⟨some [], none, (0 : Nat)⟩).context = none
    ∧ ¬(scan fallbackEnv ⟨some [], none, (0 : Nat)⟩).context = some 0 := by
  refine ⟨rfl, rfl, by decide⟩

/-- C9 (amended): for every valid (non-empty) text input the result carries
the completion timestamp and echoes the caller-supplied context unchanged;
the invalid-input early return instead omits both fields. -/
theorem scan_timestamp_context {κ : Type} (env : Env) (uid : Option Str)
    (ctx : κ) (t : Str) (ht : t ≠ []) :
    (scan env ⟨some t, uid, ctx⟩).timestamp = some env.nowMs
    ∧ (scan env ⟨some t, uid, ctx⟩).context = some ctx
    ∧ (scan env ⟨none, uid, ctx⟩).timestamp = none
    ∧ (scan env ⟨none, uid, ctx⟩).context = none := by
  have hlen : ¬t.length = 0 := by simpa using ht
  rw [scan_valid_eq env t uid ctx hlen]
  exact ⟨rfl, rfl, rfl, rfl⟩

/-- Witness for C9 at a concrete input and context. -/
theorem scan_timestamp_context_witness :
    (scan fallbackEnv ⟨some ("hi".data), none, (7 : Nat)⟩).timestamp
      = some fallbackEnv.nowMs
    ∧ (scan fallbackEnv ⟨some ("hi".data), none, (7 : Nat)⟩).context
      = some 7 :=
  ⟨(scan_timestamp_context fallbackEnv none 7 ("hi".data) (by decide)).1,
   (scan_timestamp_context fallbackEnv none 7 ("hi".data) (by decide)).2.1⟩

/-! Section: Claim C10
-/

/-- C10: any text containing a word of the fixed direct-check list as a
standalone word (case-insensitive word-boundary match on the lowercased
text, which is exactly what toxMethod3 tests) — everyday uses included —
receives toxicity score 1.0 and is rejected by scan. -/
theorem direct_profanity_rejects {κ : Type} (env : Env) (uid : Option Str)
    (ctx : κ) (t : Str) (h : toxMethod3 t = true) :
    (detectToxicity env t).score = 1
    ∧ (scan env ⟨some t, uid, ctx⟩).status = Status.REJECT := by
  have hlen : ¬t.length = 0 := by
    intro h0
    rw [List.length_eq_zero] at h0
    subst h0
    exact absurd h (by decide)
  have htox : (detectToxicity env t).score = 1 := by
    unfold detectToxicity
    rw [if_neg hlen, h]
    simp
  refine ⟨htox, ?_⟩
  rw [scan_valid_eq env t uid ctx hlen]
  show decideStatus (scanScores env t uid) = Status.REJECT
  have hs1 : (scanScores env t uid).toxicity_score = 1 := htox
  unfold decideStatus
  rw [if_pos (by rw [hs1]; norm_num)]

/-- Witness for C10 at two everyday non-abusive sentences. -/
theorem direct_profanity_rejects_witness :
    toxMethod3 ("I hate waiting".data) = true
    ∧ (scan fallbackEnv ⟨some ("I hate waiting".data), none, ()⟩).status
        = Status.REJECT
    ∧ (scan fallbackEnv ⟨some ("kill the process".data), none, ()⟩).status
        = Status.REJECT :=
  ⟨by decide,
   (direct_profanity_rejects fallbackEnv none () ("I hate waiting".data)
     (by decide)).2,
   (direct_profanity_rejects fallbackEnv none () ("kill the process".data)
     (by decide)).2⟩

end SidlabsModeration
